import Mathlib

/-!
Verification of the Blood-link backend request-lifecycle and donor-matching
subsystem, as a shallow embedding of the JavaScript source.

Sources embedded here:
- src/utils/geoUtils.js (isBloodCompatible, findNearbyDonors)
- src/routes/authRoutes.js (compatibleDonorGroups table, getCompatibleDonors, rateDonor)
- src/controllers/requestController.js (acceptRequest, cancelRequest, createRequest)
- src/routes/requestRoutes.js (acceptRequest variant, createRequest with donor fan-out)
- src/controllers/doctorController.js (verifyDonation)
- src/controllers/donorController.js (checkEligibility)
- src/models (Request and Donation schemas)

MongoDB queries are modelled over explicit lists: a geospatial near-query with
a max distance becomes a filter by distance plus an ascending sort by distance,
with the spherical distance function passed as a parameter (its value in the
source is a floating-point Haversine computation, which is kept abstract).
Mutations are pure functions from the fetched documents to an Except value:
an error result models a thrown AppError (no write happens), an ok result
carries the saved documents and the dispatched notifications.
-/

namespace BloodLink

/-- The eight ABO/Rh blood groups (the enum of the Request and User schemas). -/
inductive BloodGroup
  | Ap | An | Bp | Bn | ABp | ABn | Op | On
deriving DecidableEq, Repr, Fintype

/-- User roles (User schema enum). -/
inductive Role
  | donor | requester | doctor | ngo | admin
deriving DecidableEq, Repr, Fintype

/-- Request lifecycle status (Request schema enum). -/
inductive Status
  | pending | matched | fulfilled | cancelled | expired
deriving DecidableEq, Repr, Fintype

/-- The donor-to-recipient compatibility table of isBloodCompatible in
src/utils/geoUtils.js: the list of recipient groups each donor group may
give to. -/
def donorCompatargetGroups : BloodGroup → List BloodGroup
  | .On  => [.On, .Op, .An, .Ap, .Bn, .Bp, .ABn, .ABp]
  | .Op  => [.Op, .Ap, .Bp, .ABp]
  | .An  => [.An, .Ap, .ABn, .ABp]
  | .Ap  => [.Ap, .ABp]
  | .Bn  => [.Bn, .Bp, .ABn, .ABp]
  | .Bp  => [.Bp, .ABp]
  | .ABn => [.ABn, .ABp]
  | .ABp => [.ABp]

/-- isBloodCompatible from src/utils/geoUtils.js: can a donor with group
donorBG give to a requester with group requesterBG? -/
def isBloodCompatible (donorBG requesterBG : BloodGroup) : Bool :=
  (donorCompatargetGroups donorBG).contains requesterBG

/-- The recipient-seeks-donor table hard-coded in getCompatibleDonors
(src/routes/authRoutes.js): the donor groups acceptable for a request of the
given group. -/
def compatibleDonorGroups : BloodGroup → List BloodGroup
  | .Ap  => [.Ap, .An, .Op, .On]
  | .An  => [.An, .On]
  | .Bp  => [.Bp, .Bn, .Op, .On]
  | .Bn  => [.Bn, .On]
  | .ABp => [.Ap, .An, .Bp, .Bn, .ABp, .ABn, .Op, .On]
  | .ABn => [.An, .Bn, .ABn, .On]
  | .Op  => [.Op, .On]
  | .On  => [.On]

/-!
Calendar dates.  JavaScript Date values enter the subsystem in the
eligibility check (setMonth arithmetic) and as the donationDate written to
lastDonationDate on verification.  A date is a year/monthIndex/day triple in
JS style (monthIndex and day may be out of range; the Date normalizes them),
and comparisons between Date values compare their timestamps, modelled here
at day granularity by a civil day number.
-/

/-- A JavaScript calendar date: year, zero-based month index, day of month.
The month index and day may lie outside their usual ranges; dayNumber
normalizes them exactly as the JS Date timestamp does. -/
structure JsDate where
  year : Int
  month : Int
  day : Int
deriving DecidableEq, Repr

/-- Day count since 1970-01-01 of the civil date y-m-d with m in 1..12
(days_from_civil; out-of-range d rolls over arithmetically, matching JS
Date normalization). -/
def daysFromCivil (y m d : Int) : Int :=
  let y' : Int := if m ≤ 2 then y - 1 else y
  let era : Int := y'.fdiv 400
  let yoe : Int := y' - era * 400
  let mp : Int := (m + 9).emod 12
  let doy : Int := (153 * mp + 2).fdiv 5 + d - 1
  let doe : Int := yoe * 365 + yoe.fdiv 4 - yoe.fdiv 100 + doy
  era * 146097 + doe - 719468

/-- The timestamp of a JsDate at day granularity, with the JS normalization
of out-of-range month indices and days. -/
def JsDate.dayNumber (t : JsDate) : Int :=
  daysFromCivil (t.year + t.month.fdiv 12) (t.month.emod 12 + 1) t.day

/-- JS setMonth(getMonth() + k): shift the month index, keeping the day of
month (normalization happens in dayNumber). -/
def JsDate.addMonths (t : JsDate) (k : Int) : JsDate :=
  { t with month := t.month + k }

example : daysFromCivil 1970 1 1 = 0 := by decide
example : daysFromCivil 1970 3 1 = 59 := by decide
example : daysFromCivil 2000 3 1 = 11017 := by decide
example : (JsDate.mk 2025 (-2) 15).dayNumber = daysFromCivil 2024 11 15 := by decide

/-!  Data model: User, Request, Donation, notifications, errors.  -/

/-- The User fields this subsystem reads and writes (User schema). -/
structure User where
  id : Nat
  name : String
  role : Role
  bloodGroup : BloodGroup
  isAvailable : Bool
  isActive : Bool
  coordinates : ℚ × ℚ
  lastDonationDate : Option JsDate
  donationCount : Nat
  avgRating : ℚ
  ratingCount : Nat
deriving DecidableEq, Repr

/-- The donorRating subdocument of the Request schema. -/
structure DonorRating where
  rating : Nat
  feedback : String
  ratedAt : Int
deriving DecidableEq, Repr

/-- The Request document (Request schema).  Generic wall-clock writes
(matchedAt, verifiedAt, ...) are opaque Int timestamps. -/
structure Request where
  id : Nat
  requester : Nat
  bloodGroup : BloodGroup
  units : Nat
  coordinates : ℚ × ℚ
  address : String
  needByDate : Int
  patientName : String
  purpose : String
  isPublic : Bool
  status : Status
  assignedDonor : Option Nat
  matchedAt : Option Int
  fulfilledAt : Option Int
  verifiedBy : Option Nat
  verifiedAt : Option Int
  createdAt : Int
  updatedAt : Int
  donorRating : Option DonorRating
deriving DecidableEq, Repr

/-- The Donation audit record created by verifyDonation (Donation model). -/
structure Donation where
  donor : Nat
  request : Nat
  requester : Nat
  bloodGroup : BloodGroup
  units : Nat
  donationDate : JsDate
  location : String
  hospitalName : String
  hospitalAddress : String
  verifiedBy : Nat
  notes : String
  dstatus : String
deriving DecidableEq, Repr

/-- A dispatched notification (the notifyUser calls): recipient user id,
title, message, type, and the details.reason field when present. -/
structure Notif where
  recipient : Nat
  title : String
  message : String
  ntype : String
  reason : Option String
deriving DecidableEq, Repr

/-- A thrown AppError: HTTP status code and message. -/
structure AppErr where
  statusCode : Nat
  message : String
deriving DecidableEq, Repr

/-!  Rounding and key-based stable sorting (Math.round to one decimal and
the Array.prototype.sort call of getCompatibleDonors; JS sort is stable). -/

/-- JS Math.round: round half toward positive infinity. -/
def mathRound (q : ℚ) : Int := ⌊q + 1 / 2⌋

/-- Math.round(q * 10) / 10: round to one decimal place. -/
def round1 (q : ℚ) : ℚ := (mathRound (q * 10) : ℚ) / 10

/-- Insert a after every element whose key is not greater (stable insert). -/
def insertKeyed (key : α → ℚ) (a : α) : List α → List α
  | [] => [a]
  | b :: l => if key a < key b then a :: b :: l else b :: insertKeyed key a l

/-- Stable insertion sort ascending by a rational key: elements are folded
in from the left and each lands after existing elements of equal key. -/
def sortByKey (key : α → ℚ) (l : List α) : List α :=
  l.foldl (fun acc a => insertKeyed key a acc) []

example : sortByKey (fun n => (n : ℚ)) [3, 1, 2, 1] = [1, 1, 2, 3] := by decide

/-- Ascending by key, the postcondition of the sort calls. -/
def SortedKey (key : α → ℚ) (l : List α) : Prop :=
  l.Pairwise (fun a b => key a ≤ key b)

theorem mem_insertKeyed (key : α → ℚ) (a x : α) :
    ∀ l : List α, x ∈ insertKeyed key a l ↔ x = a ∨ x ∈ l := by
  intro l
  induction l with
  | nil => simp [insertKeyed]
  | cons b l ih =>
      by_cases h : key a < key b
      · simp [insertKeyed, h]
      · simp only [insertKeyed, if_neg h, List.mem_cons, ih]
        tauto

theorem mem_foldl_insertKeyed (key : α → ℚ) (x : α) :
    ∀ (l acc : List α),
      (x ∈ l.foldl (fun acc b => insertKeyed key b acc) acc ↔ x ∈ acc ∨ x ∈ l) := by
  intro l
  induction l with
  | nil => simp
  | cons b l ih =>
      intro acc
      simp only [List.foldl_cons, ih, mem_insertKeyed, List.mem_cons]
      tauto

theorem mem_sortByKey (key : α → ℚ) (x : α) (l : List α) :
    x ∈ sortByKey key l ↔ x ∈ l := by
  simp [sortByKey, mem_foldl_insertKeyed]

theorem sortedKey_insertKeyed {key : α → ℚ} {l : List α} (a : α)
    (h : SortedKey key l) : SortedKey key (insertKeyed key a l) := by
  induction l with
  | nil => simp [insertKeyed, SortedKey]
  | cons b l ih =>
      rcases List.pairwise_cons.mp h with ⟨hb, hl⟩
      by_cases hab : key a < key b
      · simp only [insertKeyed, if_pos hab, SortedKey]
        refine List.pairwise_cons.mpr ⟨?_, h⟩
        intro x hx
        rcases List.mem_cons.mp hx with rfl | hx
        · exact le_of_lt hab
        · exact le_trans (le_of_lt hab) (hb x hx)
      · simp only [insertKeyed, if_neg hab]
        refine List.pairwise_cons.mpr ⟨?_, ih hl⟩
        intro x hx
        rcases (mem_insertKeyed key a x l).mp hx with rfl | hx
        · exact le_of_not_lt hab
        · exact hb x hx

theorem sortedKey_foldl_insertKeyed (key : α → ℚ) :
    ∀ (l acc : List α), SortedKey key acc →
      SortedKey key (l.foldl (fun acc b => insertKeyed key b acc) acc) := by
  intro l
  induction l with
  | nil => intro acc h; simpa using h
  | cons b l ih =>
      intro acc h
      exact ih _ (sortedKey_insertKeyed b h)

theorem sortByKey_sorted (key : α → ℚ) (l : List α) :
    SortedKey key (sortByKey key l) := by
  exact sortedKey_foldl_insertKeyed key l [] (by simp [SortedKey])

theorem insertKeyed_eq_append {key : α → ℚ} {a : α} :
    ∀ l : List α, (∀ b ∈ l, ¬ key a < key b) → insertKeyed key a l = l ++ [a] := by
  intro l
  induction l with
  | nil => simp [insertKeyed]
  | cons b l ih =>
      intro h
      have hb : ¬ key a < key b := h b (List.mem_cons_self b l)
      simp only [insertKeyed, if_neg hb, List.cons_append, List.cons.injEq, true_and]
      exact ih (fun c hc => h c (List.mem_cons_of_mem b hc))

theorem foldl_insertKeyed_of_sorted (key : α → ℚ) :
    ∀ (l acc : List α), SortedKey key l →
      (∀ a ∈ acc, ∀ b ∈ l, key a ≤ key b) →
      l.foldl (fun acc b => insertKeyed key b acc) acc = acc ++ l := by
  intro l
  induction l with
  | nil => intro acc _ _; simp
  | cons b l ih =>
      intro acc hs hcross
      rcases List.pairwise_cons.mp hs with ⟨hb, hl⟩
      have hins : insertKeyed key b acc = acc ++ [b] := by
        refine insertKeyed_eq_append acc ?_
        intro c hc
        exact not_lt_of_le (hcross c hc b (List.mem_cons_self b l))
      have hcross' : ∀ a ∈ acc ++ [b], ∀ c ∈ l, key a ≤ key c := by
        intro a ha c hc
        rcases List.mem_append.mp ha with ha | ha
        · exact hcross a ha c (List.mem_cons_of_mem b hc)
        · rcases List.mem_singleton.mp ha with rfl
          exact hb c hc
      calc (b :: l).foldl (fun acc b => insertKeyed key b acc) acc
          = l.foldl (fun acc b => insertKeyed key b acc) (acc ++ [b]) := by
            simp [hins]
        _ = (acc ++ [b]) ++ l := ih (acc ++ [b]) hl hcross'
        _ = acc ++ b :: l := by simp

/-- Sorting an already-sorted list is the identity (the stable sort of
getCompatibleDonors leaves the distance-ordered candidate list in place). -/
theorem sortByKey_eq_self {key : α → ℚ} {l : List α} (h : SortedKey key l) :
    sortByKey key l = l := by
  simpa using foldl_insertKeyed_of_sorted key l [] h (by simp)

theorem mathRound_mono {q r : ℚ} (h : q ≤ r) : mathRound q ≤ mathRound r :=
  Int.floor_le_floor (by linarith)

theorem round1_mono {q r : ℚ} (h : q ≤ r) : round1 q ≤ round1 r := by
  unfold round1
  have : mathRound (q * 10) ≤ mathRound (r * 10) := mathRound_mono (by linarith)
  have h10 : (0 : ℚ) < 10 := by norm_num
  exact (div_le_div_iff_of_pos_right h10).mpr (by exact_mod_cast this)

/-!
Geo-Matcher.  calculateDistance in src/utils/geoUtils.js is the Haversine
great-circle formula with Earth radius 6371 km, evaluated in floating point;
it is kept abstract here as a distance parameter of type Dist.  A MongoDB
location near-query with maxDistance r is modelled as: keep the candidates
whose distance from the origin is at most r, ordered ascending by that
distance (the documented near-query semantics).
-/

/-- A distance function on [longitude, latitude] coordinate pairs, in km;
instantiated by the source with the Haversine formula (R = 6371). -/
abbrev Dist := (ℚ × ℚ) → (ℚ × ℚ) → ℚ

/-- findNearbyDonors from src/utils/geoUtils.js: the near-query over User
restricted to role donor, isAvailable, isActive and an exact bloodGroup
match, within the given radius (km), ascending by distance. -/
def findNearbyDonors (dist : Dist) (users : List User) (coordinates : ℚ × ℚ)
    (bloodGroup : BloodGroup) (radius : ℚ) : List User :=
  sortByKey (fun u => dist coordinates u.coordinates)
    (users.filter (fun u =>
      u.role == Role.donor && u.isAvailable && u.isActive &&
      u.bloodGroup == bloodGroup &&
      decide (dist coordinates u.coordinates ≤ radius)))

/-- One entry of the getCompatibleDonors response: the donor with the
displayed distance, Haversine rounded to one decimal place. -/
structure DonorWithDistance where
  id : Nat
  name : String
  bloodGroup : BloodGroup
  distance : ℚ
  donationCount : Nat
  lastDonationDate : Option JsDate
deriving DecidableEq, Repr

/-- The record getCompatibleDonors builds for one donor. -/
def toDonorWithDistance (dist : Dist) (origin : ℚ × ℚ) (u : User) :
    DonorWithDistance :=
  ⟨u.id, u.name, u.bloodGroup, round1 (dist origin u.coordinates),
   u.donationCount, u.lastDonationDate⟩

/-- getCompatibleDonors from src/routes/authRoutes.js: for the owner of a
pending request, list donors whose blood group is in the recipient-seeks-
donor set, available, active, within 20 km (near-query, limit 20), each with
its Haversine distance rounded to one decimal, sorted by that distance. -/
def getCompatibleDonors (dist : Dist) (users : List User)
    (findRequest : Option Request) (callerId : Nat) :
    Except AppErr (List DonorWithDistance) :=
  match findRequest with
  | none => .error ⟨404, "Request not found"⟩
  | some request =>
    if request.requester ≠ callerId then
      .error ⟨403, "Not authorized to view this request"⟩
    else if request.status ≠ Status.pending then
      .error ⟨400, "Cannot find donors for a request with this status"⟩
    else
      let compatibleGroups := compatibleDonorGroups request.bloodGroup
      if compatibleGroups.isEmpty then
        .error ⟨400, "Invalid blood group in request"⟩
      else
        let radius : ℚ := 20
        let donors :=
          (sortByKey (fun u => dist request.coordinates u.coordinates)
            (users.filter (fun u =>
              u.role == Role.donor && u.isAvailable && u.isActive &&
              compatibleGroups.contains u.bloodGroup &&
              decide (dist request.coordinates u.coordinates ≤ radius)))).take 20
        let donorsWithDistance :=
          donors.map (toDonorWithDistance dist request.coordinates)
        .ok (sortByKey (fun x => x.distance) donorsWithDistance)

/-!
Request state machine operations.  Each operation receives the documents the
handler fetches (findById results as Option values, User.findById as a
lookup function) and the current wall-clock timestamp, and returns either
the thrown AppError or the saved documents plus dispatched notifications.
-/

/-- The saved request and the notifications an accept dispatches. -/
structure AcceptResult where
  request : Request
  notifications : List Notif
deriving DecidableEq, Repr

namespace RequestController

/-- acceptRequest from src/controllers/requestController.js: a donor
(role-gated by the router) accepts a pending request; only existence,
pending status and the self-accept guard are checked here. -/
def acceptRequest (now : Int) (findRequest : Option Request) (donorId : Nat) :
    Except AppErr AcceptResult :=
  match findRequest with
  | none => .error ⟨404, "Request not found"⟩
  | some request =>
    if request.status ≠ Status.pending then
      .error ⟨400, "Only pending requests can be accepted"⟩
    else if request.requester = donorId then
      .error ⟨403, "You cannot accept your own request"⟩
    else
      let request' := { request with
        assignedDonor := some donorId,
        status := Status.matched,
        matchedAt := some now }
      .ok ⟨request',
        [⟨request.requester, "A donor has accepted your request!",
          "Donor has accepted your blood request. Please coordinate for donation.",
          "match", none⟩]⟩

/-- cancelRequest from src/controllers/requestController.js: the owning
requester or an admin cancels a request that is not fulfilled, cancelled or
expired; the assigned donor, when present and found, is notified.  The
assignedDonor field is not modified. -/
def cancelRequest (now : Int) (findRequest : Option Request)
    (findUser : Nat → Option User) (userId : Nat) (userRole : Role) :
    Except AppErr AcceptResult :=
  match findRequest with
  | none => .error ⟨404, "Request not found"⟩
  | some request =>
    if userRole ≠ Role.admin ∧ request.requester ≠ userId then
      .error ⟨403, "Not authorized to cancel this request"⟩
    else if request.status = Status.fulfilled ∨ request.status = Status.cancelled ∨
        request.status = Status.expired then
      .error ⟨400, "Cannot cancel a request with this status"⟩
    else
      let request' := { request with
        status := Status.cancelled,
        updatedAt := now }
      let notifs :=
        match request.assignedDonor with
        | some donorId =>
          match findUser donorId with
          | some _ =>
            [⟨donorId, "Request Cancelled",
              "The blood request you accepted has been cancelled by the requester or admin.",
              "cancel", none⟩]
          | none => []
        | none => []
      .ok ⟨request', notifs⟩

end RequestController

/-- Modelled from the spec: the restrictTo role middleware used by the
request routers is not among the provided sources; per the spec a role
outside the allowed set is rejected with a 403-class AuthorizationError
before the handler runs. -/
def restrictTo (roles : List Role) (callerRole : Role)
    (handler : Except AppErr α) : Except AppErr α :=
  if callerRole ∈ roles then handler
  else .error ⟨403, "You do not have permission to perform this action"⟩

/-- The accept operation as mounted by the request routers: restrictTo
donor composed with the controller acceptRequest. -/
def acceptRequestMounted (now : Int) (findRequest : Option Request)
    (caller : User) : Except AppErr AcceptResult :=
  restrictTo [Role.donor] caller.role
    (RequestController.acceptRequest now findRequest caller.id)

namespace RequestRoutes

/-- acceptRequest from src/routes/requestRoutes.js: checks role, pending
status, donor availability and donor-to-recipient blood compatibility (in
that order), then matches the request; there is no donor-equals-requester
guard in this variant. -/
def acceptRequest (now : Int) (findRequest : Option Request) (caller : User) :
    Except AppErr AcceptResult :=
  match findRequest with
  | none => .error ⟨404, "Request not found"⟩
  | some request =>
    if caller.role ≠ Role.donor then
      .error ⟨403, "Only donors can accept requests"⟩
    else if request.status ≠ Status.pending then
      .error ⟨400, "Cannot accept request with this status"⟩
    else if ¬ caller.isAvailable then
      .error ⟨400, "You are currently marked as unavailable for donation"⟩
    else if ¬ isBloodCompatible caller.bloodGroup request.bloodGroup then
      .error ⟨400, "Your blood type is not compatible with the requested type"⟩
    else
      let request' := { request with
        status := Status.matched,
        assignedDonor := some caller.id,
        matchedAt := some now,
        updatedAt := now }
      .ok ⟨request',
        [⟨request.requester, "Donor Found!",
          "A donor has accepted your blood request. You can now chat with them to coordinate.",
          "match", none⟩]⟩

/-- The request body of createRequest (required fields of the handler). -/
structure CreateBody where
  bloodGroup : BloodGroup
  units : Nat
  coordinates : ℚ × ℚ
  address : String
  needByDate : Int
  patientName : String
  purpose : String
  isPublic : Bool
deriving DecidableEq, Repr

/-- The created request, the potentialDonors count of the response, and the
fan-out notifications. -/
structure CreateResult where
  request : Request
  potentialDonors : Nat
  notifications : List Notif
deriving DecidableEq, Repr

/-- createRequest from src/routes/requestRoutes.js: validates required
fields, saves a pending request with no assigned donor, then finds nearby
donors of the same blood group within 10 km and notifies each (absence of
matches is not an error). -/
def createRequest (dist : Dist) (now : Int) (newId : Nat) (users : List User)
    (requesterId : Nat) (body : CreateBody) : Except AppErr CreateResult :=
  if body.units = 0 ∨ body.address = "" ∨ body.patientName = "" ∨
      body.purpose = "" then
    .error ⟨400, "Please provide all required fields"⟩
  else
    let request : Request :=
      { id := newId, requester := requesterId, bloodGroup := body.bloodGroup,
        units := body.units, coordinates := body.coordinates,
        address := body.address, needByDate := body.needByDate,
        patientName := body.patientName, purpose := body.purpose,
        isPublic := body.isPublic, status := Status.pending,
        assignedDonor := none, matchedAt := none, fulfilledAt := none,
        verifiedBy := none, verifiedAt := none, createdAt := now,
        updatedAt := now, donorRating := none }
    let matchingDonors :=
      findNearbyDonors dist users body.coordinates body.bloodGroup 10
    .ok ⟨request, matchingDonors.length,
      matchingDonors.map (fun d =>
        ⟨d.id, "New Blood Request",
         "Someone needs blood near you. Can you help?", "request", none⟩)⟩

end RequestRoutes

namespace DoctorController

/-- The request body of verifyDonation.  The donationDate is the calendar
date of the donation supplied by the doctor; its presence is guaranteed by
the type, while the falsy checks of the source on the other required fields
are modelled as zero/empty tests. -/
structure VerifyBody where
  units : Nat
  donationDate : JsDate
  location : String
  hospitalName : String
  hospitalAddress : String
  notes : String
  vstatus : String
deriving DecidableEq, Repr

/-- The saved request, the Donation audit record, the donor document when a
stats update was written, and the notifications. -/
structure VerifyResult where
  request : Request
  donation : Donation
  donorUpdate : Option User
  notifications : List Notif
deriving DecidableEq, Repr

/-- verifyDonation from src/controllers/doctorController.js: a doctor
verifies or rejects the donation of a matched request.  A verification
status of verified fulfills the request (fulfilledAt set, donor stats
updated to the donation date) and notifies both parties; any other status
expires the request, writes no donor stats, and notifies both parties with
the rejection reason (notes, or a default).  A Donation record is created in
both cases.  Reading assignedDonor on a matched request with no assigned
donor is the JS null dereference, modelled as a 500 error. -/
def verifyDonation (now : Int) (findRequest : Option Request)
    (findUser : Nat → Option User) (doctorId : Nat) (doctorName : String)
    (body : VerifyBody) : Except AppErr VerifyResult :=
  if body.units = 0 ∨ body.location = "" ∨ body.hospitalName = "" ∨
      body.vstatus = "" then
    .error ⟨400, "Please provide all required fields"⟩
  else
    match findRequest with
    | none => .error ⟨404, "Request not found"⟩
    | some request =>
      if request.status = Status.fulfilled then
        .error ⟨400, "This request has already been verified"⟩
      else if request.status ≠ Status.matched then
        .error ⟨400, "Only matched requests can be verified"⟩
      else
        match request.assignedDonor with
        | none => .error ⟨500, "Cannot read properties of null"⟩
        | some donorId =>
          let donation : Donation :=
            ⟨donorId, request.id, request.requester, request.bloodGroup,
             body.units, body.donationDate, body.location, body.hospitalName,
             body.hospitalAddress, doctorId, body.notes, body.vstatus⟩
          let request' := { request with
            status := if body.vstatus = "verified" then Status.fulfilled
                      else Status.expired,
            verifiedBy := some doctorId,
            verifiedAt := some now,
            fulfilledAt := if body.vstatus = "verified" then some now
                           else request.fulfilledAt }
          if body.vstatus = "verified" then
            let requesterNotif : Notif :=
              ⟨request.requester, "Donation Completed",
               "The blood donation for your request has been verified by a doctor.",
               "donation", none⟩
            match findUser donorId with
            | some donor =>
              let donor' := { donor with
                donationCount := donor.donationCount + 1,
                lastDonationDate := some body.donationDate }
              .ok ⟨request', donation, some donor',
                [⟨donorId, "Donation Verified",
                  "Your blood donation has been verified by Dr. " ++ doctorName ++
                    ". Thank you for saving lives!",
                  "verification", none⟩, requesterNotif]⟩
            | none =>
              .ok ⟨request', donation, none, [requesterNotif]⟩
          else
            let reason := if body.notes = "" then "No reason provided"
                          else body.notes
            .ok ⟨request', donation, none,
              [⟨donorId, "Donation Not Verified",
                "Your donation for a recent request could not be verified.",
                "verification", some reason⟩,
               ⟨request.requester, "Donation Not Verified",
                "The donation for your request could not be verified.",
                "donation", some reason⟩]⟩

end DoctorController

namespace DonorController

/-- The eligibility payload of checkEligibility. -/
structure EligResult where
  isEligible : Bool
  nextEligibleDate : Option JsDate
  lastDonationDate : Option JsDate
deriving DecidableEq, Repr

/-- checkEligibility from src/controllers/donorController.js: 404 unless
the caller exists with role donor; then a donor who never donated is
eligible, and one with a lastDonationDate is eligible exactly when that
date is not after now minus three calendar months (JS setMonth).  When
ineligible, nextEligibleDate is lastDonationDate plus three calendar
months.  The isAvailable and isActive flags are not consulted. -/
def checkEligibility (now : JsDate) (findUser : Option User) :
    Except AppErr EligResult :=
  match findUser with
  | none => .error ⟨404, "Donor not found"⟩
  | some donor =>
    if donor.role ≠ Role.donor then
      .error ⟨404, "Donor not found"⟩
    else
      match donor.lastDonationDate with
      | none => .ok ⟨true, none, none⟩
      | some ld =>
        let threeMonthsAgo := now.addMonths (-3)
        if ld.dayNumber > threeMonthsAgo.dayNumber then
          .ok ⟨false, some (ld.addMonths 3), some ld⟩
        else
          .ok ⟨true, none, some ld⟩

end DonorController

namespace Requester

/-- The response data of rateDonor: the updated request store, the saved
donor document, and the echoed average and count. -/
structure RateResult where
  requests : List Request
  donor : User
  donorAvgRating : ℚ
  donorRatingCount : Nat
deriving DecidableEq, Repr

/-- rateDonor from src/routes/authRoutes.js: the owning requester rates the
donor of a fulfilled request with an assigned donor, 1 to 5.  The rating is
written unconditionally (an existing donorRating is overwritten), then the
donor average is recomputed over all requests of that donor carrying a
rating, as the arithmetic mean rounded to one decimal, with the count.  The
request store is the list of Request documents; the rated request is looked
up by id in it and the recomputation query runs on the store after the
save. -/
def rateDonor (now : Int) (requests : List Request)
    (findUser : Nat → Option User) (callerId : Nat) (requestId : Nat)
    (rating : Nat) (feedback : String) : Except AppErr RateResult :=
  if rating < 1 ∨ 5 < rating then
    .error ⟨400, "Please provide request ID and valid rating (1-5)"⟩
  else
    match requests.find? (fun r => r.id == requestId) with
    | none => .error ⟨404, "Request not found"⟩
    | some request =>
      if request.requester ≠ callerId then
        .error ⟨403, "Not authorized to rate this donation"⟩
      else if request.status ≠ Status.fulfilled then
        .error ⟨400, "Can only rate fulfilled donations"⟩
      else
        match request.assignedDonor with
        | none => .error ⟨400, "No donor assigned to this request"⟩
        | some donorId =>
          let request' := { request with
            donorRating := some ⟨rating, feedback, now⟩ }
          let requests' := requests.map (fun r =>
            if r.id = request.id then request' else r)
          let donorRatings := requests'.filter (fun r =>
            r.assignedDonor == some donorId && r.donorRating.isSome)
          let totalRatings := donorRatings.length
          let avgRating : ℚ :=
            (donorRatings.map (fun r =>
              (((r.donorRating.map DonorRating.rating).getD 0 : Nat) : ℚ))).sum /
              (totalRatings : ℚ)
          match findUser donorId with
          | none => .error ⟨500, "Cannot read properties of null"⟩
          | some donor =>
            let donor' := { donor with
              avgRating := round1 avgRating,
              ratingCount := totalRatings }
            .ok ⟨requests', donor', donor'.avgRating, totalRatings⟩

end Requester

/-!  Concrete documents used to evaluate the operations. -/

/-- A request document with the clinical and geospatial fields fixed. -/
def baseRequest (id requester : Nat) (bg : BloodGroup) (st : Status)
    (donor : Option Nat) : Request :=
  { id := id, requester := requester, bloodGroup := bg, units := 2,
    coordinates := (0, 0), address := "City Hospital", needByDate := 100,
    patientName := "Patient", purpose := "surgery", isPublic := true,
    status := st, assignedDonor := donor, matchedAt := none,
    fulfilledAt := none, verifiedBy := none, verifiedAt := none,
    createdAt := 0, updatedAt := 0, donorRating := none }

/-- A user document with the rating and donation fields zeroed. -/
def baseUser (id : Nat) (role : Role) (bg : BloodGroup)
    (avail active : Bool) : User :=
  { id := id, name := "U", role := role, bloodGroup := bg,
    isAvailable := avail, isActive := active, coordinates := (0, 0),
    lastDonationDate := none, donationCount := 0, avgRating := 0,
    ratingCount := 0 }

/-- A matched request of requester 1 with donor 2 assigned. -/
def rMatched : Request := baseRequest 10 1 BloodGroup.Ap Status.matched (some 2)

/-- The spec invariant of the assignedDonor field: non-null exactly in the
matched and fulfilled states. -/
def invariantAD (r : Request) : Bool :=
  r.assignedDonor.isSome ==
    (r.status == Status.matched || r.status == Status.fulfilled)

end BloodLink

namespace BloodLink

/-- C1 counterexample: cancelling a matched request leaves assignedDonor
set while moving the status to cancelled, so the claimed biconditional
(assignedDonor non-null iff status is matched or fulfilled) is false after
the cancel operation; the input request satisfied the invariant. -/
theorem cancel_of_matched_breaks_assignedDonor_invariant :
    invariantAD rMatched = true ∧
    (RequestController.cancelRequest 7 (some rMatched) (fun _ => none) 1
        Role.requester).map
      (fun res => (res.request.status, res.request.assignedDonor,
        invariantAD res.request)) =
      .ok (Status.cancelled, some 2, false) := by
  constructor
  · rfl
  · rfl

/-- C1 amended: create establishes the invariant (pending, no donor) and
accept establishes it (matched, donor set); but cancel and verifyDonation
never write the assignedDonor field, so after cancelling a matched request
(status cancelled) or rejecting a verification (status expired) the field
stays non-null and the biconditional fails; rate rewrites only the rated
request's donorRating.  The invariant therefore holds after create, accept
and verified fulfillment, and is broken exactly by cancel-of-matched and
rejected verification. -/
theorem assignedDonor_after_each_operation :
    (∀ (dist : Dist) (now : Int) (newId : Nat) (users : List User)
        (requesterId : Nat) (body : RequestRoutes.CreateBody)
        (res : RequestRoutes.CreateResult),
      RequestRoutes.createRequest dist now newId users requesterId body =
          .ok res →
      res.request.assignedDonor = none ∧ res.request.status = Status.pending)
    ∧
    (∀ (now : Int) (fr : Option Request) (donorId : Nat) (res : AcceptResult),
      RequestController.acceptRequest now fr donorId = .ok res →
      res.request.assignedDonor = some donorId ∧
      res.request.status = Status.matched)
    ∧
    (∀ (now : Int) (r : Request) (fu : Nat → Option User) (userId : Nat)
        (userRole : Role) (res : AcceptResult),
      RequestController.cancelRequest now (some r) fu userId userRole =
          .ok res →
      res.request.status = Status.cancelled ∧
      res.request.assignedDonor = r.assignedDonor)
    ∧
    (∀ (now : Int) (r : Request) (fu : Nat → Option User) (doctorId : Nat)
        (doctorName : String) (body : DoctorController.VerifyBody)
        (res : DoctorController.VerifyResult),
      DoctorController.verifyDonation now (some r) fu doctorId doctorName
          body = .ok res →
      res.request.assignedDonor = r.assignedDonor ∧
      (body.vstatus = "verified" → res.request.status = Status.fulfilled) ∧
      (body.vstatus ≠ "verified" → res.request.status = Status.expired))
    ∧
    (∀ (now : Int) (requests : List Request) (fu : Nat → Option User)
        (callerId requestId rating : Nat) (feedback : String)
        (res : Requester.RateResult),
      Requester.rateDonor now requests fu callerId requestId rating
          feedback = .ok res →
      ∀ r' ∈ res.requests,
        (r'.status = Status.fulfilled ∧ r'.assignedDonor.isSome) ∨
        r' ∈ requests) := by
  refine ⟨?_, ?_, ?_, ?_, ?_⟩
  · intro dist now newId users requesterId body res h
    simp only [RequestRoutes.createRequest] at h
    split at h
    · cases h
    · cases h; exact ⟨rfl, rfl⟩
  · intro now fr donorId res h
    cases fr with
    | none => cases h
    | some request =>
        simp only [RequestController.acceptRequest] at h
        split at h
        · cases h
        · split at h
          · cases h
          · cases h; exact ⟨rfl, rfl⟩
  · intro now r fu userId userRole res h
    simp only [RequestController.cancelRequest] at h
    split at h
    · cases h
    · split at h
      · cases h
      · cases h; exact ⟨rfl, rfl⟩
  · intro now r fu doctorId doctorName body res h
    simp only [DoctorController.verifyDonation] at h
    split at h
    · cases h
    · split at h
      · cases h
      · split at h
        · cases h
        · split at h
          · cases h
          · rename_i donorId hdon
            by_cases hv : body.vstatus = "verified"
            · simp only [if_pos hv] at h
              split at h
              · cases h
                refine ⟨rfl, fun _ => ?_, fun hnv => absurd hv hnv⟩
                simp [if_pos hv]
              · cases h
                refine ⟨rfl, fun _ => ?_, fun hnv => absurd hv hnv⟩
                simp [if_pos hv]
            · simp only [if_neg hv] at h
              cases h
              refine ⟨rfl, fun hvv => absurd hvv hv, fun _ => ?_⟩
              simp [if_neg hv]
  · intro now requests fu callerId requestId rating feedback res h
    simp only [Requester.rateDonor] at h
    split at h
    · cases h
    · split at h
      · cases h
      · rename_i request hfind
        split at h
        · cases h
        · split at h
          · cases h
          · split at h
            · cases h
            · rename_i donorId hdon
              split at h
              · cases h
              · rename_i donor hu
                cases h
                intro r' hr'
                simp only [List.mem_map] at hr'
                obtain ⟨r, hrmem, hr⟩ := hr'
                by_cases hid : r.id = request.id
                · left
                  rw [if_pos hid] at hr
                  subst hr
                  have hst : request.status = Status.fulfilled := by
                    by_contra hne
                    simp_all
                  refine ⟨hst, ?_⟩
                  simp [hdon]
                · right
                  rw [if_neg hid] at hr
                  subst hr
                  exact hrmem

/-- The document the controller cancel saves for rMatched at time 7. -/
def rMatchedCancelled : Request :=
  { rMatched with status := Status.cancelled, updatedAt := 7 }

/-- C1 amended witness: the cancel conjunct evaluated on the concrete
matched request, confirming that cancel preserves the stored donor. -/
theorem assignedDonor_after_each_operation_witness :
    rMatchedCancelled.status = Status.cancelled ∧
    rMatchedCancelled.assignedDonor = rMatched.assignedDonor :=
  assignedDonor_after_each_operation.2.2.1 7 rMatched (fun _ => none) 1
    Role.requester ⟨rMatchedCancelled, []⟩ rfl

/-- C2: for an AB- request, both donor-matching paths return only donors
with role donor, available and active, whose blood group lies in the AB-
compatibility set (the creation path findNearbyDonors restricts further to
AB- exactly, a subset of that set), discard donors beyond the radius, and
produce output ascending by the distance function (the path through
getCompatibleDonors sorts its displayed one-decimal rounding stably, which
leaves the distance-ordered candidate list in order). -/
theorem geoMatcher_ABn_filter_and_sort (dist : Dist) :
    (∀ (users : List User) (coordinates : ℚ × ℚ) (radius : ℚ),
      (∀ u ∈ findNearbyDonors dist users coordinates BloodGroup.ABn radius,
        u ∈ users ∧ u.role = Role.donor ∧ u.isAvailable = true ∧
        u.isActive = true ∧
        u.bloodGroup ∈ compatibleDonorGroups BloodGroup.ABn ∧
        dist coordinates u.coordinates ≤ radius) ∧
      SortedKey (fun u => dist coordinates u.coordinates)
        (findNearbyDonors dist users coordinates BloodGroup.ABn radius))
    ∧
    (∀ (users : List User) (request : Request) (callerId : Nat),
      request.bloodGroup = BloodGroup.ABn →
      request.requester = callerId →
      request.status = Status.pending →
      ∃ donors : List User,
        getCompatibleDonors dist users (some request) callerId =
          .ok (donors.map (toDonorWithDistance dist request.coordinates)) ∧
        SortedKey (fun u => dist request.coordinates u.coordinates) donors ∧
        (∀ u ∈ donors, u ∈ users ∧ u.role = Role.donor ∧
          u.isAvailable = true ∧ u.isActive = true ∧
          u.bloodGroup ∈ compatibleDonorGroups BloodGroup.ABn ∧
          dist request.coordinates u.coordinates ≤ 20) ∧
        SortedKey (fun x => x.distance)
          (donors.map (toDonorWithDistance dist request.coordinates))) := by
  constructor
  · intro users coordinates radius
    constructor
    · intro u hu
      simp only [findNearbyDonors, mem_sortByKey, List.mem_filter] at hu
      obtain ⟨hmem, hp⟩ := hu
      simp only [Bool.and_eq_true, beq_iff_eq, decide_eq_true_eq] at hp
      obtain ⟨⟨⟨⟨hrole, havail⟩, hactive⟩, hbg⟩, hdist⟩ := hp
      refine ⟨hmem, hrole, havail, hactive, ?_, hdist⟩
      rw [hbg]
      decide
    · simp only [findNearbyDonors]
      exact sortByKey_sorted _ _
  · intro users request callerId hbg hown hst
    have hown' : ¬ request.requester ≠ callerId := by simp [hown]
    have hst' : ¬ request.status ≠ Status.pending := by simp [hst]
    simp only [getCompatibleDonors, if_neg hown', if_neg hst', hbg]
    have hne : (compatibleDonorGroups BloodGroup.ABn).isEmpty = false := by
      decide
    rw [hne]
    simp only [Bool.false_eq_true, if_false]
    set dkey : User → ℚ := fun u => dist request.coordinates u.coordinates
      with hdkey
    set filtered := users.filter (fun u =>
      u.role == Role.donor && u.isAvailable && u.isActive &&
      (compatibleDonorGroups BloodGroup.ABn).contains u.bloodGroup &&
      decide (dkey u ≤ 20)) with hfiltered
    set donors0 := (sortByKey dkey filtered).take 20 with hdonors0
    have hsorted0 : SortedKey dkey donors0 := by
      exact (sortByKey_sorted dkey filtered).sublist (List.take_sublist _ _)
    have hmapped : SortedKey (fun x => x.distance)
        (donors0.map (toDonorWithDistance dist request.coordinates)) := by
      rw [SortedKey, List.pairwise_map]
      exact hsorted0.imp (fun h => round1_mono h)
    refine ⟨donors0, ?_, hsorted0, ?_, hmapped⟩
    · exact congrArg Except.ok (sortByKey_eq_self hmapped)
    · intro u hu
      have hu' : u ∈ sortByKey dkey filtered := List.take_subset _ _ hu
      rw [mem_sortByKey, hfiltered, List.mem_filter] at hu'
      obtain ⟨hmem, hp⟩ := hu'
      simp only [Bool.and_eq_true, beq_iff_eq, decide_eq_true_eq,
        List.contains_eq_any_beq, List.any_eq_true] at hp
      obtain ⟨⟨⟨⟨hrole, havail⟩, hactive⟩, hbgmem⟩, hdist⟩ := hp
      refine ⟨hmem, hrole, havail, hactive, ?_, hdist⟩
      obtain ⟨g, hg, hgeq⟩ := hbgmem
      rw [hgeq]
      exact hg

/-- A concrete computable distance function standing in for the Haversine
evaluation in the witnesses. -/
def distTaxi : Dist := fun p q => |p.1 - q.1| + |p.2 - q.2|

/-- An available active A- donor 5 km from the origin. -/
def uAn : User :=
  { baseUser 3 Role.donor BloodGroup.An true true with coordinates := (0, 5) }

/-- An available active O- donor 2 km from the origin. -/
def uOn : User :=
  { baseUser 4 Role.donor BloodGroup.On true true with coordinates := (0, 2) }

/-- An available active A+ donor, incompatible with an AB- request. -/
def uAp : User :=
  { baseUser 5 Role.donor BloodGroup.Ap true true with coordinates := (0, 1) }

/-- An AB- donor 50 km out, beyond the 20 km radius. -/
def uFar : User :=
  { baseUser 6 Role.donor BloodGroup.ABn true true with
    coordinates := (0, 50) }

/-- A pending AB- request owned by requester 1 at the origin. -/
def reqABn : Request := baseRequest 11 1 BloodGroup.ABn Status.pending none

/-- The candidate pool of the geo-matching witness. -/
def poolABn : List User := [uAn, uOn, uAp, uFar]

/-- C2 witness: the matching theorem instantiated on the concrete AB-
request and pool (the lookup returns the O- donor at 2 km then the A- donor
at 5 km, excluding the incompatible A+ donor and the donor beyond the
radius). -/
theorem geoMatcher_ABn_filter_and_sort_witness :
    ((∀ u ∈ findNearbyDonors distTaxi poolABn (0, 0) BloodGroup.ABn 10,
        u ∈ poolABn ∧ u.role = Role.donor ∧ u.isAvailable = true ∧
        u.isActive = true ∧
        u.bloodGroup ∈ compatibleDonorGroups BloodGroup.ABn ∧
        distTaxi (0, 0) u.coordinates ≤ 10) ∧
      SortedKey (fun u => distTaxi (0, 0) u.coordinates)
        (findNearbyDonors distTaxi poolABn (0, 0) BloodGroup.ABn 10)) ∧
    (∃ donors : List User,
      getCompatibleDonors distTaxi poolABn (some reqABn) 1 =
        .ok (donors.map (toDonorWithDistance distTaxi reqABn.coordinates)) ∧
      SortedKey (fun u => distTaxi reqABn.coordinates u.coordinates) donors ∧
      (∀ u ∈ donors, u ∈ poolABn ∧ u.role = Role.donor ∧
        u.isAvailable = true ∧ u.isActive = true ∧
        u.bloodGroup ∈ compatibleDonorGroups BloodGroup.ABn ∧
        distTaxi reqABn.coordinates u.coordinates ≤ 20) ∧
      SortedKey (fun x => x.distance)
        (donors.map (toDonorWithDistance distTaxi reqABn.coordinates))) :=
  ⟨(geoMatcher_ABn_filter_and_sort distTaxi).1 poolABn (0, 0) 10,
   (geoMatcher_ABn_filter_and_sort distTaxi).2 poolABn reqABn 1 rfl rfl rfl⟩

/-- An available active O+ donor with id 2; O+ cannot give to AB-. -/
def uOp2 : User := baseUser 2 Role.donor BloodGroup.Op true true

/-- C3 counterexample: the accept handler the routers mount (restrictTo
donor over the controller acceptRequest) matches a pending AB- request to
an O+ donor: the incompatible call succeeds with status matched instead of
failing with an incompatibility error, refuting the claim as stated. -/
theorem accept_succeeds_despite_incompatibility :
    uOp2.role = Role.donor ∧ uOp2.isAvailable = true ∧
    isBloodCompatible uOp2.bloodGroup reqABn.bloodGroup = false ∧
    (acceptRequestMounted 5 (some reqABn) uOp2).map
      (fun res => (res.request.status, res.request.assignedDonor)) =
      .ok (Status.matched, some 2) :=
  ⟨rfl, rfl, rfl, rfl⟩

/-- C3 amended: the mounted accept operation succeeds on any existing
pending request whenever the caller's role is donor and the caller is not
the requester — donor availability and blood compatibility are not checked
on that path; the variant handler in src/routes/requestRoutes.js
additionally requires availability and donor-to-recipient compatibility and
fails with a 400 incompatibility error (writing nothing) when the groups
are incompatible, but omits the donor-not-requester guard. -/
theorem accept_preconditions_by_variant :
    (∀ (now : Int) (r : Request) (caller : User),
      r.status = Status.pending → caller.role = Role.donor →
      r.requester ≠ caller.id →
      ∃ res, acceptRequestMounted now (some r) caller = .ok res ∧
        res.request.status = Status.matched ∧
        res.request.assignedDonor = some caller.id)
    ∧
    (∀ (now : Int) (r : Request) (caller : User),
      caller.role = Role.donor → r.status = Status.pending →
      caller.isAvailable = true →
      isBloodCompatible caller.bloodGroup r.bloodGroup = true →
      ∃ res, RequestRoutes.acceptRequest now (some r) caller = .ok res ∧
        res.request.status = Status.matched ∧
        res.request.assignedDonor = some caller.id)
    ∧
    (∀ (now : Int) (r : Request) (caller : User),
      caller.role = Role.donor → r.status = Status.pending →
      caller.isAvailable = true →
      isBloodCompatible caller.bloodGroup r.bloodGroup = false →
      RequestRoutes.acceptRequest now (some r) caller =
        .error ⟨400,
          "Your blood type is not compatible with the requested type"⟩) := by
  refine ⟨?_, ?_, ?_⟩
  · intro now r caller hst hrole hneq
    simp only [acceptRequestMounted, restrictTo, RequestController.acceptRequest]
    rw [if_pos (by simp [hrole])]
    rw [if_neg (fun h => h hst)]
    rw [if_neg hneq]
    exact ⟨_, rfl, rfl, rfl⟩
  · intro now r caller hrole hst havail hcomp
    simp only [RequestRoutes.acceptRequest]
    rw [if_neg (fun h => h hrole)]
    rw [if_neg (fun h => h hst)]
    rw [if_neg (by simp [havail])]
    rw [if_neg (by simp [hcomp])]
    exact ⟨_, rfl, rfl, rfl⟩
  · intro now r caller hrole hst havail hcomp
    simp only [RequestRoutes.acceptRequest]
    rw [if_neg (fun h => h hrole)]
    rw [if_neg (fun h => h hst)]
    rw [if_neg (by simp [havail])]
    rw [if_pos (by simp [hcomp])]

/-- C3 amended witness: the incompatible O+ donor succeeds through the
mounted path and is refused with the 400 incompatibility error by the
routes variant, on the same concrete pending AB- request. -/
theorem accept_preconditions_by_variant_witness :
    (∃ res, acceptRequestMounted 5 (some reqABn) uOp2 = .ok res ∧
      res.request.status = Status.matched ∧
      res.request.assignedDonor = some uOp2.id) ∧
    RequestRoutes.acceptRequest 5 (some reqABn) uOp2 =
      .error ⟨400,
        "Your blood type is not compatible with the requested type"⟩ :=
  ⟨accept_preconditions_by_variant.1 5 reqABn uOp2 rfl rfl (by decide),
   accept_preconditions_by_variant.2.2 5 reqABn uOp2 rfl rfl rfl rfl⟩

/-- A donor whose id equals the requester of rSelf (AB+ both sides, so the
blood groups are compatible). -/
def uSelf : User := baseUser 1 Role.donor BloodGroup.ABp true true

/-- A pending AB+ request owned by user 1. -/
def rSelf : Request := baseRequest 12 1 BloodGroup.ABp Status.pending none

/-- C8 counterexample: the acceptRequest variant in
src/routes/requestRoutes.js has no donor-equals-requester guard, so the
owner of a pending request, acting as an available compatible donor,
self-accepts successfully and becomes its own assignedDonor, refuting the
claim that every self-accept call is rejected. -/
theorem self_accept_succeeds_in_routes_variant :
    uSelf.id = rSelf.requester ∧
    (RequestRoutes.acceptRequest 5 (some rSelf) uSelf).map
      (fun res => (res.request.assignedDonor, res.request.requester,
        res.request.status)) =
      .ok (some 1, 1, Status.matched) :=
  ⟨rfl, rfl⟩

/-- C8 amended: the controller acceptRequest (the handler the request
routers mount) rejects a self-accept on a pending request with the 403
error and, on any success, assigns a donor different from the requester; the
routes variant lacks the guard, as the counterexample shows. -/
theorem self_accept_blocked_in_controller :
    (∀ (now : Int) (r : Request) (donorId : Nat),
      r.status = Status.pending → r.requester = donorId →
      RequestController.acceptRequest now (some r) donorId =
        .error ⟨403, "You cannot accept your own request"⟩)
    ∧
    (∀ (now : Int) (fr : Option Request) (donorId : Nat)
        (res : AcceptResult),
      RequestController.acceptRequest now fr donorId = .ok res →
      res.request.assignedDonor = some donorId ∧
      res.request.requester ≠ donorId) := by
  constructor
  · intro now r donorId hst hown
    simp only [RequestController.acceptRequest]
    rw [if_neg (fun h => h hst)]
    rw [if_pos hown]
  · intro now fr donorId res h
    cases fr with
    | none => cases h
    | some request =>
        simp only [RequestController.acceptRequest] at h
        split at h
        · cases h
        · split at h
          · cases h
          · rename_i hneq
            cases h
            exact ⟨rfl, hneq⟩

/-- C8 amended witness: the controller handler refuses the concrete
self-accept on the pending request owned by the caller. -/
theorem self_accept_blocked_in_controller_witness :
    RequestController.acceptRequest 5 (some rSelf) 1 =
      .error ⟨403, "You cannot accept your own request"⟩ :=
  self_accept_blocked_in_controller.1 5 rSelf 1 rfl rfl

/-- C4: verifying a matched request with verification status verified
fulfills it with verifiedBy, verifiedAt and fulfilledAt set, increments the
assigned donor's donationCount by exactly one, sets the donor's
lastDonationDate to the verification's donationDate (a calendar date
independent of the wall clock now), creates a Donation record referencing
donor, requester and request, and notifies both parties. -/
theorem verifyDonation_verified_effects
    (now : Int) (r : Request) (fu : Nat → Option User) (doctorId : Nat)
    (doctorName : String) (body : DoctorController.VerifyBody)
    (dId : Nat) (donor : User)
    (hst : r.status = Status.matched)
    (hdon : r.assignedDonor = some dId)
    (hu : fu dId = some donor)
    (hv : body.vstatus = "verified")
    (hunits : body.units ≠ 0)
    (hloc : body.location ≠ "")
    (hhosp : body.hospitalName ≠ "") :
    ∃ res, DoctorController.verifyDonation now (some r) fu doctorId
        doctorName body = .ok res ∧
      res.request.status = Status.fulfilled ∧
      res.request.verifiedBy = some doctorId ∧
      res.request.verifiedAt = some now ∧
      res.request.fulfilledAt = some now ∧
      res.donorUpdate = some { donor with
        donationCount := donor.donationCount + 1,
        lastDonationDate := some body.donationDate } ∧
      res.donation.donor = dId ∧
      res.donation.requester = r.requester ∧
      res.donation.request = r.id ∧
      (∃ n ∈ res.notifications, n.recipient = dId) ∧
      (∃ n ∈ res.notifications, n.recipient = r.requester) := by
  simp only [DoctorController.verifyDonation]
  rw [if_neg (by
    refine not_or.mpr ⟨hunits, not_or.mpr ⟨hloc, not_or.mpr ⟨hhosp, ?_⟩⟩⟩
    rw [hv]; decide)]
  rw [if_neg (by simp [hst])]
  rw [if_neg (fun h => h hst)]
  rw [hdon, hv]
  dsimp only
  rw [if_pos rfl, hu]
  dsimp only
  refine ⟨_, rfl, rfl, rfl, rfl, rfl, ?_, rfl, rfl, rfl, ?_, ?_⟩
  · rfl
  · exact ⟨_, List.mem_cons_self _ _, rfl⟩
  · exact ⟨_, List.mem_cons_of_mem _ (List.mem_cons_self _ _), rfl⟩

/-- The donor document for the verification witnesses. -/
def uDonor2 : User := baseUser 2 Role.donor BloodGroup.Ap true true

/-- The donation date the doctor reports in the witnesses. -/
def dateAug : JsDate := ⟨2025, 7, 15⟩

/-- A complete verified verification body. -/
def vbodyVerified : DoctorController.VerifyBody :=
  ⟨1, dateAug, "City", "General Hospital", "", "", "verified"⟩

/-- A complete rejected verification body with a rejection note. -/
def vbodyRejected : DoctorController.VerifyBody :=
  ⟨1, dateAug, "City", "General Hospital", "", "low hemoglobin", "rejected"⟩

/-- The user directory of the verification witnesses: only donor 2. -/
def fuDonor2 : Nat → Option User :=
  fun n => if n = 2 then some uDonor2 else none

/-- C4 witness: the verified verification of the concrete matched request,
with the donor stats written from the reported donation date. -/
theorem verifyDonation_verified_effects_witness :
    ∃ res, DoctorController.verifyDonation 50 (some rMatched) fuDonor2 9
        "Roy" vbodyVerified = .ok res ∧
      res.request.status = Status.fulfilled ∧
      res.request.verifiedBy = some 9 ∧
      res.request.verifiedAt = some 50 ∧
      res.request.fulfilledAt = some 50 ∧
      res.donorUpdate = some { uDonor2 with
        donationCount := uDonor2.donationCount + 1,
        lastDonationDate := some vbodyVerified.donationDate } ∧
      res.donation.donor = 2 ∧
      res.donation.requester = rMatched.requester ∧
      res.donation.request = rMatched.id ∧
      (∃ n ∈ res.notifications, n.recipient = 2) ∧
      (∃ n ∈ res.notifications, n.recipient = rMatched.requester) :=
  verifyDonation_verified_effects 50 rMatched fuDonor2 9 "Roy" vbodyVerified
    2 uDonor2 rfl rfl rfl rfl (by decide) (by decide) (by decide)

/-- C5: verifying a matched request with verification status rejected
expires the request instead of fulfilling it, writes no donor stats (there
is no user update in the result), leaves fulfilledAt untouched, and still
notifies both the donor and the requester with the rejection reason. -/
theorem verifyDonation_rejected_effects
    (now : Int) (r : Request) (fu : Nat → Option User) (doctorId : Nat)
    (doctorName : String) (body : DoctorController.VerifyBody) (dId : Nat)
    (hst : r.status = Status.matched)
    (hdon : r.assignedDonor = some dId)
    (hv : body.vstatus = "rejected")
    (hunits : body.units ≠ 0)
    (hloc : body.location ≠ "")
    (hhosp : body.hospitalName ≠ "") :
    ∃ res, DoctorController.verifyDonation now (some r) fu doctorId
        doctorName body = .ok res ∧
      res.request.status = Status.expired ∧
      res.request.fulfilledAt = r.fulfilledAt ∧
      res.donorUpdate = none ∧
      (∃ n ∈ res.notifications, n.recipient = dId ∧
        n.reason = some (if body.notes = "" then "No reason provided"
          else body.notes)) ∧
      (∃ n ∈ res.notifications, n.recipient = r.requester ∧
        n.reason = some (if body.notes = "" then "No reason provided"
          else body.notes)) := by
  simp only [DoctorController.verifyDonation]
  rw [if_neg (by
    refine not_or.mpr ⟨hunits, not_or.mpr ⟨hloc, not_or.mpr ⟨hhosp, ?_⟩⟩⟩
    rw [hv]; decide)]
  rw [if_neg (by simp [hst])]
  rw [if_neg (fun h => h hst)]
  rw [hdon, hv]
  dsimp only
  rw [if_neg (by decide)]
  refine ⟨_, rfl, by simp, by simp, rfl, ?_, ?_⟩
  · exact ⟨_, List.mem_cons_self _ _, rfl, rfl⟩
  · exact ⟨_, List.mem_cons_of_mem _ (List.mem_cons_self _ _), rfl, rfl⟩

/-- C5 witness: the rejected verification of the concrete matched request;
the request expires, the donor is untouched, both parties receive the
rejection reason. -/
theorem verifyDonation_rejected_effects_witness :
    ∃ res, DoctorController.verifyDonation 50 (some rMatched) fuDonor2 9
        "Roy" vbodyRejected = .ok res ∧
      res.request.status = Status.expired ∧
      res.request.fulfilledAt = rMatched.fulfilledAt ∧
      res.donorUpdate = none ∧
      (∃ n ∈ res.notifications, n.recipient = 2 ∧
        n.reason = some (if vbodyRejected.notes = "" then
          "No reason provided" else vbodyRejected.notes)) ∧
      (∃ n ∈ res.notifications, n.recipient = rMatched.requester ∧
        n.reason = some (if vbodyRejected.notes = "" then
          "No reason provided" else vbodyRejected.notes)) :=
  verifyDonation_rejected_effects 50 rMatched fuDonor2 9 "Roy"
    vbodyRejected 2 rfl rfl rfl (by decide) (by decide) (by decide)

/-- The wall-clock date of the eligibility scenarios: 2025-10-11 (JS month
index 9). -/
def now0 : JsDate := ⟨2025, 9, 11⟩

/-- A donor marked unavailable and inactive who never donated. -/
def uUnavailable : User := baseUser 7 Role.donor BloodGroup.Ap false false

/-- C6 counterexample: checkEligibility reports the unavailable, inactive
donor as eligible (the isAvailable and isActive flags are never read), and
the next-eligible arithmetic is plus three calendar months, which from
2025-03-01 lands 92 days later, not the claimed 90. -/
theorem eligibility_ignores_flags_and_uses_calendar_months :
    uUnavailable.isAvailable = false ∧ uUnavailable.isActive = false ∧
    uUnavailable.role = Role.donor ∧
    (DonorController.checkEligibility now0 (some uUnavailable)).map
      (fun e => e.isEligible) = .ok true ∧
    ((JsDate.mk 2025 2 1).addMonths 3).dayNumber =
      (JsDate.mk 2025 2 1).dayNumber + 92 :=
  ⟨rfl, rfl, rfl, rfl, by decide⟩

/-- C6 amended: checkEligibility answers 404 for a non-donor role and
otherwise ignores isAvailable and isActive; a donor who never donated is
eligible, and one with a lastDonationDate is eligible exactly when that
date is not after now minus three calendar months; when ineligible, the
reported nextEligibleDate is lastDonationDate plus three calendar months
(JS setMonth, not a fixed 90 days). -/
theorem checkEligibility_characterization :
    (∀ (now : JsDate) (u : User), u.role ≠ Role.donor →
      DonorController.checkEligibility now (some u) =
        .error ⟨404, "Donor not found"⟩)
    ∧
    (∀ (now : JsDate) (u : User), u.role = Role.donor →
      ∃ e, DonorController.checkEligibility now (some u) = .ok e ∧
        (e.isEligible = true ↔
          (u.lastDonationDate = none ∨
           ∃ ld, u.lastDonationDate = some ld ∧
             ld.dayNumber ≤ (now.addMonths (-3)).dayNumber)) ∧
        (∀ ld, u.lastDonationDate = some ld →
          (now.addMonths (-3)).dayNumber < ld.dayNumber →
          e.isEligible = false ∧
          e.nextEligibleDate = some (ld.addMonths 3))) := by
  constructor
  · intro now u h
    simp only [DonorController.checkEligibility]
    rw [if_pos h]
  · intro now u h
    simp only [DonorController.checkEligibility]
    rw [if_neg (fun hh => hh h)]
    cases hld : u.lastDonationDate with
    | none =>
        refine ⟨_, rfl, by simp, ?_⟩
        intro ld hld' _
        cases hld'
    | some ld =>
        dsimp only
        by_cases hgt : ld.dayNumber > (now.addMonths (-3)).dayNumber
        · rw [if_pos hgt]
          refine ⟨_, rfl, ?_, ?_⟩
          · constructor
            · intro hfalse
              cases hfalse
            · rintro (hnone | ⟨ld', hld', hle⟩)
              · cases hnone
              · cases hld'
                exact absurd hle (not_le.mpr hgt)
          · intro ld' hld' _
            cases hld'
            exact ⟨rfl, rfl⟩
        · rw [if_neg hgt]
          refine ⟨_, rfl, ?_, ?_⟩
          · simp only [true_iff]
            right
            exact ⟨ld, rfl, not_lt.mp hgt⟩
          · intro ld' hld' hlt
            cases hld'
            exact absurd hlt hgt

/-- A donor whose last donation was 2025-09-01, forty days before now0. -/
def uRecent : User :=
  { baseUser 8 Role.donor BloodGroup.Bp true true with
    lastDonationDate := some ⟨2025, 8, 1⟩ }

/-- C6 amended witness: the donor who donated forty days ago is reported
ineligible with nextEligibleDate three calendar months after the donation
(the spec scenario instantiated on the embedded code). -/
theorem checkEligibility_characterization_witness :
    (now0.dayNumber - (JsDate.mk 2025 8 1).dayNumber = 40) ∧
    ∃ e, DonorController.checkEligibility now0 (some uRecent) = .ok e ∧
      (e.isEligible = true ↔
        (uRecent.lastDonationDate = none ∨
         ∃ ld, uRecent.lastDonationDate = some ld ∧
           ld.dayNumber ≤ (now0.addMonths (-3)).dayNumber)) ∧
      (∀ ld, uRecent.lastDonationDate = some ld →
        (now0.addMonths (-3)).dayNumber < ld.dayNumber →
        e.isEligible = false ∧
        e.nextEligibleDate = some (ld.addMonths 3)) :=
  ⟨by decide, checkEligibility_characterization.2 now0 uRecent rfl⟩

/-- The rating query of rateDonor (requests of the donor carrying a
donorRating, projected to the numeric rating) written as a filter-then-map
agrees with the direct filterMap formulation used in the rating theorem. -/
theorem donorRatings_filter_filterMap (dId : Nat) :
    ∀ l : List Request,
      ((l.filter (fun r =>
          r.assignedDonor == some dId && r.donorRating.isSome)).map
        (fun r => (((r.donorRating.map DonorRating.rating).getD 0 : Nat) : ℚ)))
      = ((l.filterMap (fun r =>
            if r.assignedDonor = some dId then
              r.donorRating.map DonorRating.rating else none)).map
          (fun n => ((n : Nat) : ℚ))) := by
  intro l
  induction l with
  | nil => rfl
  | cons r l ih =>
      by_cases hda : r.assignedDonor = some dId
      · cases hdr : r.donorRating with
        | none =>
            simp only [List.filter_cons, List.filterMap_cons, hda, hdr,
              Option.isSome_none, Bool.and_false, if_pos, Option.map_none',
              beq_self_eq_true, Bool.true_and]
            simpa using ih
        | some dr =>
            simp only [List.filter_cons, List.filterMap_cons, hda, hdr,
              Option.isSome_some, Bool.and_true, if_pos, Option.map_some',
              beq_self_eq_true, Bool.true_and]
            simp only [List.map_cons, Option.getD_some, ih]
            simp [hdr]
      · have hbeq : (r.assignedDonor == some dId) = false := by
          simp [hda]
        simp only [List.filter_cons, List.filterMap_cons, hbeq, if_neg hda,
          Bool.false_and, ih]
        rw [if_neg Bool.false_ne_true]
        exact ih

/-- C10: on a fulfilled request with an assigned donor, rate by the owning
requester with a rating within 1..5 always succeeds — no check of a
previously stored donorRating exists, so an existing rating, feedback and
ratedAt are overwritten — and the donor document is rewritten with
ratingCount the number of that donor's rated requests after the save and
avgRating their arithmetic mean rounded to one decimal place. -/
theorem rateDonor_always_overwrites
    (now : Int) (requests : List Request) (fu : Nat → Option User)
    (callerId requestId rating : Nat) (feedback : String)
    (request : Request) (dId : Nat) (donor : User)
    (hfind : requests.find? (fun r => r.id == requestId) = some request)
    (hown : request.requester = callerId)
    (hst : request.status = Status.fulfilled)
    (hdon : request.assignedDonor = some dId)
    (hu : fu dId = some donor)
    (h1 : 1 ≤ rating) (h5 : rating ≤ 5) :
    ∃ res, Requester.rateDonor now requests fu callerId requestId rating
        feedback = .ok res ∧
      (let updated := requests.map (fun r =>
        if r.id = request.id then
          { request with donorRating := some ⟨rating, feedback, now⟩ }
        else r)
       let ratings := updated.filterMap (fun r =>
        if r.assignedDonor = some dId then
          r.donorRating.map DonorRating.rating else none)
       res.requests = updated ∧
       res.donor.avgRating =
         round1 ((ratings.map (fun n => ((n : Nat) : ℚ))).sum /
           (ratings.length : ℚ)) ∧
       res.donor.ratingCount = ratings.length ∧
       res.donor.id = donor.id ∧ res.donor.name = donor.name) := by
  simp only [Requester.rateDonor]
  rw [if_neg (not_or.mpr ⟨not_lt.mpr h1, not_lt.mpr h5⟩)]
  rw [hfind]
  dsimp only
  rw [if_neg (fun h => h hown)]
  rw [if_neg (fun h => h hst)]
  rw [hdon]
  dsimp only
  rw [hu]
  dsimp only
  have hEq := donorRatings_filter_filterMap dId (requests.map (fun r =>
    if r.id = request.id then
      { request with assignedDonor := some dId, donorRating := some ⟨rating, feedback, now⟩ }
    else r))
  have hsum := congrArg List.sum hEq
  have hlen : (( requests.map (fun r =>
      if r.id = request.id then
        { request with assignedDonor := some dId, donorRating := some ⟨rating, feedback, now⟩ }
      else r)).filter (fun r =>
        r.assignedDonor == some dId && r.donorRating.isSome)).length =
      (( requests.map (fun r =>
      if r.id = request.id then
        { request with assignedDonor := some dId, donorRating := some ⟨rating, feedback, now⟩ }
      else r)).filterMap (fun r =>
        if r.assignedDonor = some dId then
          r.donorRating.map DonorRating.rating else none)).length := by
    have := congrArg List.length hEq
    simpa using this
  refine ⟨_, rfl, rfl, ?_, ?_, rfl, rfl⟩
  · dsimp only
    rw [hsum, hlen]
  · dsimp only
    rw [hlen]

/-- A fulfilled request of requester 1 with donor 2, already rated 5. -/
def rRated20 : Request :=
  { baseRequest 20 1 BloodGroup.Ap Status.fulfilled (some 2) with donorRating := some ⟨5, "great", 1⟩ }

/-- A second fulfilled request of donor 2, rated 3 by requester 3. -/
def rRated21 : Request :=
  { baseRequest 21 3 BloodGroup.Bp Status.fulfilled (some 2) with donorRating := some ⟨3, "ok", 2⟩ }

/-- The request store of the rating witness. -/
def storeRated : List Request := [rRated20, rRated21]

/-- C10 witness: re-rating the already-rated request 20 with a 4 succeeds,
overwrites the stored 5, and recomputes donor 2's average over the ratings
4 and 3 with count 2. -/
theorem rateDonor_always_overwrites_witness :
    ∃ res, Requester.rateDonor 99 storeRated fuDonor2 1 20 4 "better" =
        .ok res ∧
      (let updated := storeRated.map (fun r =>
        if r.id = rRated20.id then
          { rRated20 with donorRating := some ⟨4, "better", 99⟩ }
        else r)
       let ratings := updated.filterMap (fun r =>
        if r.assignedDonor = some 2 then
          r.donorRating.map DonorRating.rating else none)
       res.requests = updated ∧
       res.donor.avgRating =
         round1 ((ratings.map (fun n => ((n : Nat) : ℚ))).sum /
           (ratings.length : ℚ)) ∧
       res.donor.ratingCount = ratings.length ∧
       res.donor.id = uDonor2.id ∧ res.donor.name = uDonor2.name) :=
  rateDonor_always_overwrites 99 storeRated fuDonor2 1 20 4 "better"
    rRated20 2 uDonor2 rfl rfl rfl rfl rfl (by decide) (by decide)

end BloodLink

namespace BloodLink

/-- C7: the recipient-seeks-donor table of getCompatibleDonors and the
donor-to-recipient table of isBloodCompatible are mutual inverses: a donor
group d is listed as compatible for a recipient group g exactly when
isBloodCompatible holds of d and g. -/
theorem compat_tables_mutual_inverses :
    ∀ g d : BloodGroup,
      d ∈ compatibleDonorGroups g ↔ isBloodCompatible d g = true := by
  decide

end BloodLink
